import Mathlib

/-!
Shallow embedding of the large-file scanner scripts
(repository `find-large-files-graphql`) and proofs about them.

Python floats only ever hold byte counts divided by powers of two here
(1024 and 1024²), which is exact in binary floating point for all
realistic sizes, so sizes and thresholds are modelled as exact rationals.
Network fetches are modelled as explicit function parameters; loops that
are not structurally bounded carry a fuel argument, `none` meaning the
fuel ran out before the loop finished.
-/

/-- Python's built-in `round` to 2 decimal places applied to an exact
rational: round half to even (banker's rounding) on `x * 100`. -/
def rndHalfEven (x : ℚ) : ℤ :=
  if Int.fract x < 1/2 then ⌊x⌋
  else if 1/2 < Int.fract x then ⌊x⌋ + 1
  else if ⌊x⌋ % 2 = 0 then ⌊x⌋ else ⌊x⌋ + 1

/-- `round(q, 2)` in Python, on the exact rational value of the float. -/
def roundPy2 (q : ℚ) : ℚ := (rndHalfEven (q * 100) : ℚ) / 100

/-- One entry of a GraphQL tree response as consumed by
`find-large-files-graphql.py` / `find-large-files.py`: fields `type`,
`path`, and the `object` field whose only datum is `byteSize`.
`object = none` models both an absent/null `object` and the empty dict
`{}` returned for non-blob entries (both are falsy in Python). -/
structure TreeEntry where
  type : String
  path : String
  object : Option Nat
deriving DecidableEq, Repr

/-- The body of the `for entry in entries` loop of `walk_tree`
(`find-large-files-graphql.py` lines 89-101), over a whole entry list:
returns the `(path, round(size_kb, 2))` records appended to
`large_files` and the subdirectory paths appended to `stack`, in
iteration order.  Note the threshold comparison is `size_kb >=
SIZE_THRESHOLD_KB` (inclusive). -/
def walkTreeProcess (t : ℚ) : List TreeEntry → List (String × ℚ) × List String
  | [] => ([], [])
  | e :: es =>
    let rest := walkTreeProcess t es
    if e.type = "blob" then
      match e.object with
      | some b =>
        if (b : ℚ) / 1024 ≥ t then ((e.path, roundPy2 ((b : ℚ) / 1024)) :: rest.1, rest.2)
        else rest
      | none => rest
    else if e.type = "tree" then (rest.1, e.path :: rest.2)
    else rest

/-- The `while stack` loop of `walk_tree` (`find-large-files-graphql.py`
lines 83-101).  `g` maps a directory path to the entries returned by
`get_tree_entries` for it.  `stack.pop()` takes the last element and
tree paths are appended at the end, exactly as in the Python list.
`fuel` bounds the number of iterations; `none` means the loop had not
finished within `fuel` iterations. -/
def walkTreeGo (g : String → List TreeEntry) (t : ℚ) :
    Nat → List String → List (String × ℚ) → Option (List (String × ℚ))
  | 0, stack, acc => if stack.isEmpty then some acc else none
  | fuel + 1, stack, acc =>
    match stack.getLast? with
    | none => some acc
    | some current =>
      let res := walkTreeProcess t (g current)
      walkTreeGo g t fuel (stack.dropLast ++ res.2) (acc ++ res.1)

/-- `walk_tree(commit_sha)` of `find-large-files-graphql.py`: starts with
`stack = [""]` and an empty record list. -/
def walk_tree (g : String → List TreeEntry) (t : ℚ) (fuel : Nat) :
    Option (List (String × ℚ)) :=
  walkTreeGo g t fuel [""] []

/-- Loop body of `walk_tree_recursively` (`find-large-files.py` lines
86-96): identical to `walkTreeProcess` except that the threshold
comparison is strict (`size_kb > SIZE_THRESHOLD_KB`). -/
def walkStrictProcess (t : ℚ) : List TreeEntry → List (String × ℚ) × List String
  | [] => ([], [])
  | e :: es =>
    let rest := walkStrictProcess t es
    if e.type = "blob" then
      match e.object with
      | some b =>
        if (b : ℚ) / 1024 > t then ((e.path, roundPy2 ((b : ℚ) / 1024)) :: rest.1, rest.2)
        else rest
      | none => rest
    else if e.type = "tree" then (rest.1, e.path :: rest.2)
    else rest

/-- The `while stack` loop of `walk_tree_recursively`
(`find-large-files.py` lines 81-96). -/
def walkStrictGo (g : String → List TreeEntry) (t : ℚ) :
    Nat → List String → List (String × ℚ) → Option (List (String × ℚ))
  | 0, stack, acc => if stack.isEmpty then some acc else none
  | fuel + 1, stack, acc =>
    match stack.getLast? with
    | none => some acc
    | some current =>
      let res := walkStrictProcess t (g current)
      walkStrictGo g t fuel (stack.dropLast ++ res.2) (acc ++ res.1)

/-- `walk_tree_recursively(sha)` of `find-large-files.py`. -/
def walk_tree_recursively (g : String → List TreeEntry) (t : ℚ) (fuel : Nat) :
    Option (List (String × ℚ)) :=
  walkStrictGo g t fuel [""] []

/-- The `object` value of a blob entry in
`find-large-files-graphql-csv6.py`: a dict on which `blob.get("byteSize", 0)`
is called, so the `byteSize` key may be absent (`none`). -/
structure Csv6Blob where
  byteSize : Option Nat
deriving DecidableEq, Repr

/-- One entry of a csv6 GraphQL tree response.  `object = none` models an
absent/falsy `object` (skipped by `if blob:`); `some blob` a truthy dict. -/
structure Csv6Entry where
  type : String
  path : String
  object : Option Csv6Blob
deriving DecidableEq, Repr

/-- One row appended to `large_files` by `walk_tree_recursive` of
`find-large-files-graphql-csv6.py` (lines 102-107). -/
structure Csv6Rec where
  repository : String
  path : String
  sizeKB : ℚ
  sizeMB : ℚ
deriving DecidableEq, Repr

mutual
/-- `walk_tree_recursive(owner, repo, branch, ...)` of
`find-large-files-graphql-csv6.py` (lines 86-111).  `repoName` stands for
`f"{owner}/{repo}"`; `g` maps a path prefix to the outcome of
`get_tree_entries` for it (`.error` = the exception raised by
`graphql_query` on a non-200 response, lines 57-58).  `fuel` bounds the
recursion depth; `none` means the Python recursion would not have
returned within that depth. -/
def walk_tree_recursive (repoName : String) (g : String → Except String (List Csv6Entry))
    (t : ℚ) : Nat → String → Option (Except String (List Csv6Rec))
  | 0, _ => none
  | fuel + 1, p =>
    match g p with
    | .error err => some (.error err)
    | .ok entries => csv6Entries repoName g t fuel entries
termination_by fuel _p => (fuel, 0)

/-- The `for entry in entries` loop of `walk_tree_recursive` (lines
91-110): blob entries contribute a record when `size_kb > threshold_kb`
(strict), tree entries recurse; an exception anywhere propagates. -/
def csv6Entries (repoName : String) (g : String → Except String (List Csv6Entry))
    (t : ℚ) : Nat → List Csv6Entry → Option (Except String (List Csv6Rec))
  | _, [] => some (.ok [])
  | fuel, e :: es =>
    if e.type = "blob" then
      match e.object with
      | some blob =>
        let sizeKB : ℚ := ((blob.byteSize.getD 0 : ℕ) : ℚ) / 1024
        let sizeMB : ℚ := sizeKB / 1024
        let recs : List Csv6Rec :=
          if sizeKB > t then [⟨repoName, e.path, roundPy2 sizeKB, roundPy2 sizeMB⟩] else []
        match csv6Entries repoName g t fuel es with
        | none => none
        | some (.error err) => some (.error err)
        | some (.ok rest) => some (.ok (recs ++ rest))
      | none => csv6Entries repoName g t fuel es
    else if e.type = "tree" then
      match walk_tree_recursive repoName g t fuel e.path with
      | none => none
      | some (.error err) => some (.error err)
      | some (.ok sub) =>
        match csv6Entries repoName g t fuel es with
        | none => none
        | some (.error err) => some (.error err)
        | some (.ok rest) => some (.ok (sub ++ rest))
    else csv6Entries repoName g t fuel es
termination_by fuel es => (fuel, es.length + 1)
end

/-- The per-repository loop of csv6 `main` (lines 174-179): each
repository's `walk_tree_recursive` outcome either extends
`all_large_files` or is logged and skipped — the batch continues. -/
def scanBatch : List (Except String (List Csv6Rec)) → List Csv6Rec
  | [] => []
  | .ok recs :: rest => recs ++ scanBatch rest
  | .error _ :: rest => scanBatch rest

/-- One item of the REST recursive tree listing (`resp.json()["tree"]` in
`find-large-files-rest.py`), with the fields the script reads. -/
structure RestItem where
  type : Option String
  path : Option String
  sha : String
  size : Option Nat
deriving DecidableEq, Repr

/-- The scanning loop of `find_large_files`
(`find-large-files-rest.py` lines 50-64): every item of the flat listing
of type `blob` is classified; a missing `size` falls back to the blob
API, modelled by `gb`.  The threshold comparison is
`size_kb >= SIZE_THRESHOLD_KB` (inclusive). -/
def find_large_files (gb : String → Nat) (t : ℚ) : List RestItem → List (String × ℚ)
  | [] => []
  | item :: rest =>
    (if item.type = some "blob" then
      let sizeBytes : Nat := match item.size with | some s => s | none => gb item.sha
      let sizeKB : ℚ := (sizeBytes : ℚ) / 1024
      if sizeKB ≥ t then [(item.path.getD "<unknown path>", roundPy2 sizeKB)] else []
    else []) ++ find_large_files gb t rest

/-- One item of the flat tree listing consumed by
`scan_repository_for_large_files` (`github-graphql-scanner.py`),
accessed only through `item.get(...)`. -/
structure FlatItem where
  type : Option String
  path : Option String
  size : Option Nat
deriving DecidableEq, Repr

/-- The JSON body of the flat-tree response: the `truncated` flag
(read at line 198) and the `tree` list. -/
structure FlatResp where
  truncated : Bool
  tree : List FlatItem
deriving DecidableEq, Repr

/-- One record of `large_files` in `scan_repository_for_large_files`
(lines 206-211).  The `size_formatted` display string is derived from
`size_bytes` and not modelled. -/
structure ScanRec where
  path : Option String
  size_bytes : Option Nat
  repo_path : String
deriving DecidableEq, Repr

/-- The filtering loop of `scan_repository_for_large_files` (lines
204-211): items of type `blob` whose size is strictly greater than
`threshold_kb * 1024` bytes become records. -/
def flatCollect (owner repoName : String) (threshold_bytes : ℤ) : List FlatItem → List ScanRec
  | [] => []
  | item :: rest =>
    (if item.type = some "blob" ∧ ((item.size.getD 0 : ℕ) : ℤ) > threshold_bytes then
      [⟨item.path, item.size, owner ++ "/" ++ repoName ++ "/" ++ item.path.getD "None"⟩]
    else []) ++ flatCollect owner repoName threshold_bytes rest

/-- `scan_repository_for_large_files` of `github-graphql-scanner.py`
(lines 174-220) on an already-fetched flat response: the `truncated`
flag is only logged as a warning (lines 198-199) and the flat listing is
used as-is; records are sorted descending by `size_bytes` (Python's
stable `list.sort` with `reverse=True`) and cut to `max_files`. -/
def scan_repository_for_large_files (owner repoName : String) (resp : FlatResp)
    (threshold_kb : ℤ) (max_files : Nat) : List ScanRec :=
  let threshold_bytes := threshold_kb * 1024
  let large_files := flatCollect owner repoName threshold_bytes resp.tree
  (large_files.mergeSort (fun a b => decide (b.size_bytes.getD 0 ≤ a.size_bytes.getD 0))).take
    max_files

/-- An HTTP response as observed by the `run_query` helpers. -/
structure HttpResp where
  status : Nat
  body : String
deriving DecidableEq, Repr

/-- The retry loop of `run_query` in `find-large-files.py` (lines
18-25): `responses i` is the response to the i-th POST; any non-200
status — 4xx included — is followed by `time.sleep(1)` and another
attempt, until `retries` attempts are exhausted.  Returns the outcome,
the number of attempts made, and the total seconds slept. -/
def runQueryRetryGo (responses : Nat → HttpResp) : Nat → Nat → Except String String × Nat × Nat
  | i, 0 => (.error "Query failed after retries", i, i)
  | i, n + 1 =>
    let r := responses i
    if r.status = 200 then (.ok r.body, i + 1, i)
    else runQueryRetryGo responses (i + 1) n

/-- `run_query(query, variables, retries)` of `find-large-files.py`. -/
def run_query (responses : Nat → HttpResp) (retries : Nat) : Except String String × Nat × Nat :=
  runQueryRetryGo responses 0 retries

/-- `run_query` of `find-large-files-graphql.py` (lines 22-27): a single
POST; any non-200 status raises immediately, with no retry and no
sleep. -/
def run_query_once (response : HttpResp) : Except String String :=
  if response.status ≠ 200 then .error "GraphQL query failed" else .ok response.body

/-- The `rateLimit` payload of a GraphQL response
(`github-graphql-scanner.py` lines 330-332). -/
structure RateLimitInfo where
  remaining : Nat
  resetAt : Nat
deriving DecidableEq, Repr

/-- The pause `scan_repository` takes after a repository
(`github-graphql-scanner.py` line 427, `time.sleep(args.rate_limit_pause)`);
the `rateLimit` payload of the response (lines 329-332) is only logged,
so the pause is the fixed configured value. -/
def repoScanPause (pause : Nat) (_rl : RateLimitInfo) : Nat := pause

/-- The time of the next outbound call after a call issued at `now`
whose response reported `rl`. -/
def nextCallTime (now pause : Nat) (rl : RateLimitInfo) : Nat :=
  now + repoScanPause pause rl

/-- Call times of the main scan loop (`github-graphql-scanner.py` lines
514-516): the i-th repository call is issued at `now`, its response
reports `rls[i]`, and the loop sleeps the fixed pause before the next. -/
def batchCallTimes (pause : Nat) : Nat → List RateLimitInfo → List Nat
  | _, [] => []
  | now, rl :: rest => now :: batchCallTimes pause (nextCallTime now pause rl) rest

/-- The ordering applied by `save_results_to_file`
(`find-large-files-graphql.py` line 112): `sorted(files, key=lambda x: -x[1])`,
Python's stable sort ascending on the negated size — i.e. stable
descending on size, with no further tie-break. -/
def save_results_order (files : List (String × ℚ)) : List (String × ℚ) :=
  files.mergeSort (fun a b => decide (b.2 ≤ a.2))

/-! ### A synthetic repository tree fixture

Both fetch strategies are specified against the same repository content:
a finite tree of named blobs and directories, each carrying its full
path as the API reports it.  From a fixture we derive (a) the
per-directory entry lists a GraphQuery walker sees and (b) the flat
recursive listing the REST endpoint returns. -/

mutual
inductive GEntry where
  | blob (path : String) (size : Nat)
  | dir (path : String) (children : GEntries)

inductive GEntries where
  | nil
  | cons (head : GEntry) (tail : GEntries)
end

mutual
/-- The GraphQL entry produced for one child of a directory: blobs carry
`object.byteSize`; directory entries get a falsy `object`. -/
def toEntry : GEntry → TreeEntry
  | .blob p s => ⟨"blob", p, some s⟩
  | .dir p _ => ⟨"tree", p, none⟩

/-- The GraphQL entry list `get_tree_entries` returns for a directory
with children `cs`. -/
def toEntries : GEntries → List TreeEntry
  | .nil => []
  | .cons e es => toEntry e :: toEntries es
end

mutual
/-- The flat recursive REST listing of one entry and its descendants,
in preorder, every blob with its `size` present. -/
def flatItemE : GEntry → List RestItem
  | .blob p s => [⟨some "blob", some p, p, some s⟩]
  | .dir p cs => ⟨some "tree", some p, p, none⟩ :: flatItems cs

/-- The flat recursive REST listing of a child list. -/
def flatItems : GEntries → List RestItem
  | .nil => []
  | .cons e es => flatItemE e ++ flatItems es
end

mutual
/-- Number of directories in one entry (the number of `get_tree_entries`
calls its expansion costs the GraphQuery walker). -/
def dirCountE : GEntry → Nat
  | .blob _ _ => 0
  | .dir _ cs => 1 + dirCountL cs

/-- Number of directories in a child list. -/
def dirCountL : GEntries → Nat
  | .nil => 0
  | .cons e es => dirCountE e + dirCountL es
end

/-- The subdirectory paths `walk_tree` pushes for a child list, in entry
order. -/
def dirPaths : GEntries → List String
  | .nil => []
  | .cons (.blob _ _) es => dirPaths es
  | .cons (.dir p _) es => p :: dirPaths es

/-- The record a single blob child contributes to `large_files` while
its directory is processed (inclusive comparison, as in
`find-large-files-graphql.py`). -/
def blobRecE (t : ℚ) : GEntry → List (String × ℚ)
  | .blob p s => if (s : ℚ) / 1024 ≥ t then [(p, roundPy2 ((s : ℚ) / 1024))] else []
  | .dir _ _ => []

/-- The records the immediate blob children of a directory contribute, in
entry order. -/
def blobRecs (t : ℚ) : GEntries → List (String × ℚ)
  | .nil => []
  | .cons e es => blobRecE t e ++ blobRecs t es

mutual
/-- All records `walk_tree` accumulates while fully expanding one
directory entry, in the walker's own order: first the directory's
immediate blobs, then its subdirectories expanded from the last pushed
to the first (the stack pops from the end). -/
def wrecsE (t : ℚ) : GEntry → List (String × ℚ)
  | .blob _ _ => []
  | .dir _ cs => blobRecs t cs ++ wrecsRev t cs

/-- Records accumulated while expanding the pushed subdirectories of a
child list, last pushed first. -/
def wrecsRev (t : ℚ) : GEntries → List (String × ℚ)
  | .nil => []
  | .cons e es => wrecsRev t es ++ wrecsE t e
end

mutual
/-- `g` answers `get_tree_entries` consistently with the fixture below
entry `e`: every directory path maps to the entry list of its children. -/
def agreesE (g : String → List TreeEntry) : GEntry → Prop
  | .blob _ _ => True
  | .dir p cs => g p = toEntries cs ∧ agreesL g cs

/-- `g` answers consistently with the fixture below every entry of a
child list. -/
def agreesL (g : String → List TreeEntry) : GEntries → Prop
  | .nil => True
  | .cons e es => agreesE g e ∧ agreesL g es
end

/-- Modelled from the spec: "`sizeKB = sizeBytes / 1024`, `sizeMB =
sizeKB / 1024`, rounded to 2 decimal places using half-up rounding" —
half-up rounding to hundredths is `⌊q·100 + 1/2⌋ / 100`. -/
def specHalfUp2 (q : ℚ) : ℚ := ((⌊q * 100 + 1/2⌋ : ℤ) : ℚ) / 100

/-- The spec's synthetic fixture, children of directory `b`:
`{b/c.bin: 2048KB, b/d.txt: 10KB}`. -/
def fixtureB : GEntries :=
  .cons (.blob "b/c.bin" 2097152) (.cons (.blob "b/d.txt" 10240) .nil)

/-- Root children of the spec's synthetic fixture `{a.txt: 500KB,
b/c.bin: 2048KB, b/d.txt: 10KB}`. -/
def fixtureRoot : GEntries :=
  .cons (.blob "a.txt" 512000) (.cons (.dir "b" fixtureB) .nil)

/-- `get_tree_entries` answers for the synthetic fixture. -/
def fixtureG : String → List TreeEntry :=
  fun p => if p = "b" then toEntries fixtureB
    else if p = "" then toEntries fixtureRoot else []

/-- A tree graph in which the directory path `dir` is listed twice at the
root (a repeated submodule-style reference). -/
def gRepeat : String → List TreeEntry := fun p =>
  if p = "" then [⟨"tree", "dir", none⟩, ⟨"tree", "dir", none⟩]
  else if p = "dir" then [⟨"blob", "dir/big.bin", some 2097152⟩] else []

/-- csv6 `get_tree_entries` answers for a repository whose root holds a
qualifying blob and a subdirectory whose expansion raises. -/
def gSubFail : String → Except String (List Csv6Entry) := fun p =>
  if p = "" then .ok [⟨"blob", "big.bin", some ⟨some 2097152⟩⟩, ⟨"tree", "sub", none⟩]
  else .error "GraphQL error 500"

/-- csv6 `get_tree_entries` answers for a root holding one subdirectory
whose expansion raises. -/
def gSubFail2 : String → Except String (List Csv6Entry) := fun p =>
  if p = "" then .ok [⟨"tree", "sub", none⟩] else .error "boom"

/-- Processing the entry list of a fixture directory yields its blob
records and its subdirectory paths, both in entry order. -/
theorem walkTreeProcess_toEntries (t : ℚ) : ∀ (cs : GEntries),
    walkTreeProcess t (toEntries cs) = (blobRecs t cs, dirPaths cs)
  | .nil => rfl
  | .cons (.blob p s) es => by
    have ih := walkTreeProcess_toEntries t es
    simp only [toEntries, toEntry, walkTreeProcess, blobRecs, blobRecE, dirPaths, ih]
    by_cases hc : t ≤ (s : ℚ) / 1024 <;> simp [hc]
  | .cons (.dir p cs') es => by
    have ih := walkTreeProcess_toEntries t es
    simp [toEntries, toEntry, walkTreeProcess, blobRecs, blobRecE, dirPaths, ih]

mutual
/-- Expanding a directory sitting on top of the stack consumes exactly
its directory count of fuel and appends exactly its walker records. -/
theorem walkGo_expand_dir (g : String → List TreeEntry) (t : ℚ) :
    ∀ (p : String) (cs : GEntries), agreesE g (.dir p cs) →
    ∀ (k : Nat) (stack : List String) (acc : List (String × ℚ)),
    walkTreeGo g t (dirCountE (.dir p cs) + k) (stack ++ [p]) acc
      = walkTreeGo g t k stack (acc ++ wrecsE t (.dir p cs))
  | p, cs, h, k, stack, acc => by
    simp only [agreesE] at h
    have key : dirCountE (.dir p cs) + k = (dirCountL cs + k) + 1 := by
      simp [dirCountE]; omega
    rw [key, walkTreeGo, List.getLast?_concat]
    simp only [List.dropLast_concat, h.1, walkTreeProcess_toEntries]
    rw [walkGo_expand_list g t cs h.2 k stack (acc ++ blobRecs t cs)]
    simp [wrecsE, List.append_assoc]
termination_by p cs _ _ _ _ => sizeOf cs + 1

/-- Expanding the subdirectories a child list pushed onto the stack. -/
theorem walkGo_expand_list (g : String → List TreeEntry) (t : ℚ) :
    ∀ (cs : GEntries), agreesL g cs →
    ∀ (k : Nat) (stack : List String) (acc : List (String × ℚ)),
    walkTreeGo g t (dirCountL cs + k) (stack ++ dirPaths cs) acc
      = walkTreeGo g t k stack (acc ++ wrecsRev t cs)
  | .nil, _, k, stack, acc => by simp [dirCountL, dirPaths, wrecsRev]
  | .cons (.blob p s) es, h, k, stack, acc => by
    simp only [agreesL] at h
    simpa [dirCountL, dirCountE, dirPaths, wrecsRev, wrecsE] using
      walkGo_expand_list g t es h.2 k stack acc
  | .cons (.dir q cs') es, h, k, stack, acc => by
    simp only [agreesL] at h
    have key : dirCountL (.cons (.dir q cs') es) + k
        = dirCountL es + (dirCountE (.dir q cs') + k) := by
      simp [dirCountL]; omega
    rw [key]
    have hstack : stack ++ dirPaths (.cons (.dir q cs') es)
        = (stack ++ [q]) ++ dirPaths es := by
      simp [dirPaths]
    rw [hstack, walkGo_expand_list g t es h.2 (dirCountE (.dir q cs') + k) (stack ++ [q]) acc,
      walkGo_expand_dir g t q cs' h.1 k stack (acc ++ wrecsRev t es)]
    simp [wrecsRev, List.append_assoc]
termination_by cs _ _ _ _ => sizeOf cs
end

/-- `find_large_files` distributes over list append. -/
theorem find_large_files_append (gb : String → Nat) (t : ℚ) :
    ∀ (l1 l2 : List RestItem),
    find_large_files gb t (l1 ++ l2) = find_large_files gb t l1 ++ find_large_files gb t l2
  | [], l2 => rfl
  | item :: rest, l2 => by
    simp [find_large_files, find_large_files_append gb t rest l2]

mutual
/-- A record is collected by the GraphQuery walker for one fixture entry
iff the flat REST scan collects it from that entry's flat listing. -/
theorem mem_wrecs_entry (gb : String → Nat) (t : ℚ) :
    ∀ (e : GEntry) (r : String × ℚ),
    (r ∈ blobRecE t e ++ wrecsE t e) ↔ r ∈ find_large_files gb t (flatItemE e)
  | .blob p s, r => by
    simp only [blobRecE, wrecsE, flatItemE, find_large_files]
    split <;> simp_all [find_large_files]
  | .dir p cs', r => by
    have ih := mem_wrecs_list gb t cs' r
    simpa [blobRecE, wrecsE, flatItemE, find_large_files] using ih
termination_by e _ => sizeOf e

/-- Same statement for a whole child list. -/
theorem mem_wrecs_list (gb : String → Nat) (t : ℚ) :
    ∀ (cs : GEntries) (r : String × ℚ),
    (r ∈ blobRecs t cs ++ wrecsRev t cs) ↔ r ∈ find_large_files gb t (flatItems cs)
  | .nil, r => by simp [blobRecs, wrecsRev, flatItems, find_large_files]
  | .cons e es, r => by
    have ih1 := mem_wrecs_entry gb t e r
    have ih2 := mem_wrecs_list gb t es r
    simp only [blobRecs, wrecsRev, flatItems, find_large_files_append,
      List.mem_append] at ih1 ih2 ⊢
    tauto
termination_by cs _ => sizeOf cs
end

/-- Claim C7: for every repository tree fixture and every threshold, the
record set produced by the FlatTree strategy (`find_large_files` of
`find-large-files-rest.py` over the flat recursive listing) equals the
record set produced by pure per-directory GraphQuery expansion
(`walk_tree` of `find-large-files-graphql.py`): the two fetch strategies
are interchangeable with respect to the final record set. -/
theorem C7_strategy_equivalence (root : GEntries) (g : String → List TreeEntry)
    (gb : String → Nat) (t : ℚ)
    (hroot : g "" = toEntries root) (hagree : agreesL g root) :
    ∃ out, walk_tree g t (dirCountL root + 1) = some out ∧
      ∀ r, r ∈ out ↔ r ∈ find_large_files gb t (flatItems root) := by
  refine ⟨blobRecs t root ++ wrecsRev t root, ?_, fun r => mem_wrecs_list gb t root r⟩
  unfold walk_tree
  have key : dirCountL root + 1 = (dirCountL root + 0) + 1 := by omega
  have hsingle : ([""] : List String) = [] ++ [""] := rfl
  rw [key, walkTreeGo, hsingle, List.getLast?_concat]
  simp only [List.dropLast_concat, hroot, walkTreeProcess_toEntries]
  have e1 := walkGo_expand_list g t root hagree 0 [] ([] ++ blobRecs t root)
  simp only [Nat.add_zero] at e1
  rw [e1]
  simp [walkTreeGo]

theorem C7_strategy_equivalence_witness :
    ∃ out, walk_tree fixtureG 1000 (dirCountL fixtureRoot + 1) = some out ∧
      ∀ r, r ∈ out ↔ r ∈ find_large_files (fun _ => 0) 1000 (flatItems fixtureRoot) :=
  C7_strategy_equivalence fixtureRoot fixtureG (fun _ => 0) 1000
    (by simp [fixtureG, fixtureRoot])
    (by simp [agreesL, agreesE, fixtureG, fixtureRoot, fixtureB])

/-- Claim C1 (counterexample): a blob of exactly 50 KB (51200 bytes) at
threshold 50 KB *is* reported by `walk_tree` of
`find-large-files-graphql.py` — the comparison there is `>=`, so a blob
whose size in KB equals the threshold produces a record, contradicting
the claimed strict inequality. -/
theorem C1_counterexample :
    walk_tree (fun _ => [⟨"blob", "f.bin", some 51200⟩]) 50 2 = some [("f.bin", 50)]
  ∧ ([("f.bin", (50 : ℚ))] : List (String × ℚ)) ≠ [] := by
  constructor
  · norm_num [walk_tree, walkTreeGo, walkTreeProcess, List.getLast?,
      roundPy2, rndHalfEven, Int.fract]
  · simp

/-- Claim C1 (amended): the threshold comparison is not identical across
the traversal variants.  `find-large-files.py` (`walk_tree_recursively`),
csv6 (`walk_tree_recursive`) and the scanner
(`scan_repository_for_large_files`) report a blob iff its size is
strictly above the threshold, while `find-large-files-graphql.py`
(`walk_tree`) and `find-large-files-rest.py` (`find_large_files`) also
report a blob whose size in KB exactly equals the threshold (inclusive
`>=`). -/
theorem C1_amended_threshold_variants (b : Nat) (t : ℚ) (tk : ℤ) (p : String) :
    walk_tree (fun _ => [⟨"blob", p, some b⟩]) t 2
      = some (if (b : ℚ) / 1024 ≥ t then [(p, roundPy2 ((b : ℚ) / 1024))] else [])
  ∧ walk_tree_recursively (fun _ => [⟨"blob", p, some b⟩]) t 2
      = some (if (b : ℚ) / 1024 > t then [(p, roundPy2 ((b : ℚ) / 1024))] else [])
  ∧ find_large_files (fun _ => 0) t [⟨some "blob", some p, p, some b⟩]
      = (if (b : ℚ) / 1024 ≥ t then [(p, roundPy2 ((b : ℚ) / 1024))] else [])
  ∧ walk_tree_recursive "o/r" (fun _ => .ok [⟨"blob", p, some ⟨some b⟩⟩]) t 2 ""
      = some (.ok (if (b : ℚ) / 1024 > t then
          [⟨"o/r", p, roundPy2 ((b : ℚ) / 1024), roundPy2 ((b : ℚ) / 1024 / 1024)⟩] else []))
  ∧ scan_repository_for_large_files "o" "r" ⟨false, [⟨some "blob", some p, some b⟩]⟩ tk 10
      = (if ((b : ℕ) : ℤ) > tk * 1024 then
          [⟨some p, some b, "o" ++ "/" ++ "r" ++ "/" ++ p⟩] else []) := by
  refine ⟨?_, ?_, ?_, ?_, ?_⟩
  · by_cases hc : t ≤ (b : ℚ) / 1024 <;>
      simp [walk_tree, walkTreeGo, walkTreeProcess, List.getLast?, hc]
  · by_cases hc : t < (b : ℚ) / 1024 <;>
      simp [walk_tree_recursively, walkStrictGo, walkStrictProcess, List.getLast?, hc]
  · by_cases hc : t ≤ (b : ℚ) / 1024 <;> simp [find_large_files, hc]
  · by_cases hc : t < (b : ℚ) / 1024 <;>
      simp [walk_tree_recursive, csv6Entries, hc]
  · by_cases hc : ((b : ℕ) : ℤ) > tk * 1024 <;>
      simp [scan_repository_for_large_files, flatCollect, hc]

/-- Claim C2 (counterexample): the walkers have no duplicate-path guard.
A root whose entry list names the directory `dir` twice makes
`walk_tree` expand `dir` twice and report its qualifying blob twice:
the record list contains duplicates. -/
theorem C2_counterexample :
    walk_tree gRepeat 1000 4
      = some [("dir/big.bin", 2048), ("dir/big.bin", 2048)]
  ∧ ¬ ([("dir/big.bin", (2048 : ℚ)), ("dir/big.bin", 2048)] : List (String × ℚ)).Nodup := by
  constructor
  · simp [gRepeat, walk_tree, walkTreeGo, walkTreeProcess,
      (show (1000 : ℚ) ≤ 2097152 / 1024 from by norm_num),
      (show roundPy2 ((2097152 : ℚ) / 1024) = 2048 from by
        norm_num [roundPy2, rndHalfEven, Int.fract])]
  · simp

/-- Claim C2 (amended): no visited-set exists; a path already expanded is
re-enqueued every time it reappears (duplicating its records, see the
counterexample), and on a self-referential tree — the root listing
itself as a subdirectory — the `while stack` loop of `walk_tree` never
terminates: for every iteration bound the loop is still running. -/
theorem C2_amended_self_loop (fuel : Nat) (t : ℚ) :
    walk_tree (fun _ => [⟨"tree", "", none⟩]) t fuel = none := by
  suffices h : ∀ (n : Nat) (acc : List (String × ℚ)),
      walkTreeGo (fun _ => [⟨"tree", "", none⟩]) t n [""] acc = none by
    exact h fuel []
  intro n
  induction n with
  | zero => intro acc; simp [walkTreeGo]
  | succ m ih =>
    intro acc
    rw [walkTreeGo]
    simpa [walkTreeProcess, List.getLast?] using ih acc

/-- Claim C3 (counterexample): in csv6's `walk_tree_recursive` a failure
while expanding one subtree (`sub`) propagates as an exception and
aborts the whole repository scan: the qualifying 2048 KB blob found at
the root is discarded and the walk returns the error, not the records
found elsewhere. -/
theorem C3_counterexample :
    walk_tree_recursive "o/r" gSubFail 1000 3 "" = some (.error "GraphQL error 500")
  ∧ (2097152 : ℚ) / 1024 > 1000 := by
  constructor
  · simp [gSubFail, walk_tree_recursive, csv6Entries]
  · norm_num

/-- `scanBatch` distributes over append. -/
theorem scanBatch_append : ∀ (l1 l2 : List (Except String (List Csv6Rec))),
    scanBatch (l1 ++ l2) = scanBatch l1 ++ scanBatch l2
  | [], _ => rfl
  | .ok recs :: rest, l2 => by simp [scanBatch, scanBatch_append rest l2]
  | .error e :: rest, l2 => by simp [scanBatch, scanBatch_append rest l2]

/-- Claim C3 (amended): when expanding one subtree fails, csv6's
`walk_tree_recursive` raises for the whole repository — the records
already found are discarded and the error is returned for the
repository, not recorded against the path; failure isolation exists only
at repository granularity: `main`'s per-repository loop (`scanBatch`)
logs the failed repository and continues with the remaining ones. -/
theorem C3_amended_repo_abort (g : String → Except String (List Csv6Entry))
    (repoName : String) (t : ℚ) (fuel : Nat) (p sub : String)
    (es : List Csv6Entry) (err : String)
    (pre post : List (Except String (List Csv6Rec)))
    (h1 : g p = .ok (⟨"tree", sub, none⟩ :: es)) (h2 : g sub = .error err) :
    walk_tree_recursive repoName g t (fuel + 2) p = some (.error err)
  ∧ scanBatch (pre ++ .error err :: post) = scanBatch pre ++ scanBatch post := by
  constructor
  · have hf : fuel + 2 = (fuel + 1) + 1 := rfl
    rw [hf, walk_tree_recursive, h1]
    simp [csv6Entries, walk_tree_recursive, h2]
  · rw [scanBatch_append]
    simp [scanBatch]

theorem C3_amended_repo_abort_witness :
    walk_tree_recursive "o/r" gSubFail2 1000 2 "" = some (.error "boom")
  ∧ scanBatch ([.ok [⟨"o/r", "x.bin", 1, 1⟩]] ++ .error "boom" :: [.ok []])
      = scanBatch [.ok [⟨"o/r", "x.bin", 1, 1⟩]] ++ scanBatch [.ok []] :=
  C3_amended_repo_abort gSubFail2 "o/r" 1000 0 "" "sub" [] "boom"
    [.ok [⟨"o/r", "x.bin", 1, 1⟩]] [.ok []]
    (by simp [gSubFail2]) (by simp [gSubFail2])

/-- Claim C4 (counterexample): a truncated flat-tree response is treated
as final.  The repository holds a qualifying `hidden.bin` (2 MB, visible
in the untruncated listing, second conjunct), but when the response is
marked `truncated` and omits it, the scanner returns no records at all —
no GraphQuery fallback recovers the file. -/
theorem C4_counterexample :
    scan_repository_for_large_files "o" "r"
        ⟨true, [⟨some "blob", some "a.txt", some 102400⟩]⟩ 1024 10 = []
  ∧ scan_repository_for_large_files "o" "r"
        ⟨false, [⟨some "blob", some "a.txt", some 102400⟩,
          ⟨some "blob", some "hidden.bin", some 2097152⟩]⟩ 1024 10
      = [⟨some "hidden.bin", some 2097152, "o" ++ "/" ++ "r" ++ "/" ++ "hidden.bin"⟩] := by
  constructor
  · simp [scan_repository_for_large_files, flatCollect]
  · simp [scan_repository_for_large_files, flatCollect]

/-- Every record collected from a flat listing stems from one of its
items, with that item's path and size. -/
theorem flatCollect_mem : ∀ (l : List FlatItem) (rec : ScanRec) (o r : String) (tb : ℤ),
    rec ∈ flatCollect o r tb l →
    ∃ item ∈ l, rec.path = item.path ∧ rec.size_bytes = item.size
  | [], rec, o, r, tb => by simp [flatCollect]
  | item :: rest, rec, o, r, tb => by
    simp only [flatCollect, List.mem_append]
    intro h
    rcases h with h | h
    · by_cases hc : item.type = some "blob" ∧ ((item.size.getD 0 : ℕ) : ℤ) > tb
      · simp only [if_pos hc, List.mem_singleton] at h
        exact ⟨item, by simp, by simp [h]⟩
      · simp [if_neg hc] at h
    · obtain ⟨it, hit, h'⟩ := flatCollect_mem rest rec o r tb h
      exact ⟨it, by simp [hit], h'⟩

/-- Claim C4 (amended): `truncated: true` triggers no fallback.
`scan_repository_for_large_files` only logs a warning and uses the flat
response as final: its output is identical to that for an untruncated
response with the same tree, and every reported record comes from an
item of that (possibly incomplete) listing — files beneath the truncated
portion are simply absent. -/
theorem C4_amended_no_fallback (truncVal : Bool) (tree : List FlatItem)
    (owner repoName : String) (tk : ℤ) (m : Nat) :
    scan_repository_for_large_files owner repoName ⟨truncVal, tree⟩ tk m
      = scan_repository_for_large_files owner repoName ⟨false, tree⟩ tk m
  ∧ ∀ rec ∈ scan_repository_for_large_files owner repoName ⟨truncVal, tree⟩ tk m,
      ∃ item ∈ tree, rec.path = item.path ∧ rec.size_bytes = item.size := by
  refine ⟨rfl, fun rec hrec => ?_⟩
  have hmem : rec ∈ flatCollect owner repoName (tk * 1024) tree := by
    simp only [scan_repository_for_large_files] at hrec
    exact (List.mergeSort_perm _ _).mem_iff.1 (List.mem_of_mem_take hrec)
  exact flatCollect_mem tree rec owner repoName (tk * 1024) hmem

/-- Claim C5 (counterexample): `run_query` of `find-large-files.py`
retries a 404 — a plain 4xx — exhausting all 3 attempts instead of
surfacing the failure immediately after 1 attempt. -/
theorem C5_counterexample :
    (run_query (fun _ => ⟨404, "Not Found"⟩) 3).2.1 = 3
  ∧ (run_query (fun _ => ⟨404, "Not Found"⟩) 3).1 = .error "Query failed after retries"
  ∧ (3 : ℕ) ≠ 1 :=
  ⟨rfl, rfl, by decide⟩

/-- Claim C5 (amended): neither retry loop inspects the status class.
`run_query` of `find-large-files.py` retries every non-200 response —
4xx included — up to 3 attempts with a fixed 1-second sleep after each
failed attempt (no exponential backoff, no jitter), succeeding iff one
of the first 3 responses is a 200; `run_query` of
`find-large-files-graphql.py` makes exactly one attempt and surfaces
every non-200 immediately. -/
theorem C5_amended_retry_policy (responses : Nat → HttpResp) (r : HttpResp) :
    (run_query responses 3).2.1 ≤ 3
  ∧ ((run_query responses 3).1.isOk ↔ ∃ i < 3, (responses i).status = 200)
  ∧ (run_query responses 3).2.2
      = (run_query responses 3).2.1 - (if (run_query responses 3).1.isOk then 1 else 0)
  ∧ ((run_query_once r).isOk ↔ r.status = 200) := by
  have h4 : (run_query_once r).isOk ↔ r.status = 200 := by
    by_cases hr : r.status = 200 <;> simp [run_query_once, hr, Except.isOk, Except.toBool]
  refine ⟨?_, ?_, ?_, h4⟩
  · by_cases h0 : (responses 0).status = 200 <;>
      by_cases h1 : (responses 1).status = 200 <;>
      by_cases h2 : (responses 2).status = 200 <;>
      simp [run_query, runQueryRetryGo, h0, h1, h2]
  · by_cases h0 : (responses 0).status = 200
    · simp only [run_query, runQueryRetryGo, if_pos h0]
      simp [Except.isOk, Except.toBool]
      exact ⟨0, by norm_num, h0⟩
    · by_cases h1 : (responses 1).status = 200
      · simp only [run_query, runQueryRetryGo, if_neg h0, if_pos h1]
        simp [Except.isOk, Except.toBool]
        exact ⟨1, by norm_num, h1⟩
      · by_cases h2 : (responses 2).status = 200
        · simp only [run_query, runQueryRetryGo, if_neg h0, if_neg h1, if_pos h2]
          simp [Except.isOk, Except.toBool]
          exact ⟨2, by norm_num, h2⟩
        · simp only [run_query, runQueryRetryGo, if_neg h0, if_neg h1, if_neg h2]
          simp [Except.isOk, Except.toBool]
          intro i hi
          interval_cases i <;> assumption
  · by_cases h0 : (responses 0).status = 200 <;>
      by_cases h1 : (responses 1).status = 200 <;>
      by_cases h2 : (responses 2).status = 200 <;>
      simp [run_query, runQueryRetryGo, h0, h1, h2, Except.isOk, Except.toBool]

/-- Claim C6 (counterexample): a 128-byte blob has `sizeKB = 0.125`
exactly; Python's `round(0.125, 2)` is banker's rounding and yields
`0.12`, not the `0.13` half-up rounding would give.  The csv6 walker
therefore reports `Size_KB = 0.12 = 3/25`. -/
theorem C6_counterexample :
    walk_tree_recursive "o/r" (fun _ => .ok [⟨"blob", "f.bin", some ⟨some 128⟩⟩]) 0 2 ""
      = some (.ok [⟨"o/r", "f.bin", 3/25, 0⟩])
  ∧ (3/25 : ℚ) ≠ 13/100 := by
  constructor
  · simp [walk_tree_recursive, csv6Entries,
      (show (0 : ℚ) < 128 / 1024 from by norm_num),
      (show roundPy2 ((128 : ℚ) / 1024) = 3/25 from by
        norm_num [roundPy2, rndHalfEven, Int.fract]),
      (show roundPy2 ((128 : ℚ) / 1024 / 1024) = 0 from by
        norm_num [roundPy2, rndHalfEven, Int.fract])]
  · norm_num

/-- Away from exact ties, round-half-to-even agrees with
`⌊x + 1/2⌋`-style half-up rounding. -/
theorem rndHalfEven_of_ne_half (x : ℚ) (h : Int.fract x ≠ 1/2) :
    rndHalfEven x = ⌊x + 1/2⌋ := by
  have hx : ((⌊x⌋ : ℤ) : ℚ) + Int.fract x = x := Int.floor_add_fract x
  have h1 : Int.fract x < 1 := Int.fract_lt_one x
  rcases lt_or_gt_of_ne h with hlt | hgt
  · rw [rndHalfEven, if_pos hlt]
    symm
    rw [Int.floor_eq_iff]
    constructor
    · have := Int.fract_nonneg x
      linarith
    · linarith
  · rw [rndHalfEven, if_neg (by linarith), if_pos hgt]
    symm
    rw [Int.floor_eq_iff]
    constructor
    · push_cast
      linarith
    · push_cast
      linarith

/-- Fractional part of a natural number divided by 256. -/
theorem fract_natCast_div_256 (n : ℕ) :
    Int.fract ((n : ℚ) / 256) = ((n % 256 : ℕ) : ℚ) / 256 := by
  have hmod : n % 256 < 256 := Nat.mod_lt _ (by norm_num)
  have hnat : 256 * (n / 256) + n % 256 = n := Nat.div_add_mod n 256
  have hq : (256 : ℚ) * ((n / 256 : ℕ) : ℚ) + ((n % 256 : ℕ) : ℚ) = (n : ℚ) := by
    exact_mod_cast congrArg (fun m : ℕ => (m : ℚ)) hnat
  have hdecomp : (n : ℚ) / 256 = ((n / 256 : ℕ) : ℚ) + ((n % 256 : ℕ) : ℚ) / 256 := by
    field_simp
    linarith
  rw [hdecomp, show ((n / 256 : ℕ) : ℚ) = (((n / 256 : ℕ) : ℤ) : ℚ) from by norm_cast,
    Int.fract_int_add]
  refine Int.fract_eq_self.mpr ⟨by positivity, ?_⟩
  rw [div_lt_one (by norm_num)]
  exact_mod_cast hmod

/-- Claim C6 (amended): `sizeKB` and `sizeMB` are rounded to 2 decimal
places with Python's `round`, which is round-half-to-even, not half-up:
away from exact ties (for `sizeKB`, whenever `b % 256 ≠ 128`) it agrees
with half-up rounding, but a tie such as `b = 128` (`0.125` KB) rounds
to the even hundredth `0.12`. -/
theorem C6_amended_banker_rounding (b : ℕ) :
    (b % 256 ≠ 128 → roundPy2 ((b : ℚ) / 1024) = specHalfUp2 ((b : ℚ) / 1024))
  ∧ roundPy2 ((128 : ℚ) / 1024) = 3 / 25 := by
  constructor
  · intro hb
    have hx : ((b : ℚ) / 1024) * 100 = ((25 * b : ℕ) : ℚ) / 256 := by push_cast; ring_nf
    have hne : (25 * b) % 256 ≠ 128 := by omega
    have hfr_ne : Int.fract (((b : ℚ) / 1024) * 100) ≠ 1/2 := by
      rw [hx, fract_natCast_div_256]
      intro hcontra
      apply hne
      have h128 : (((25 * b) % 256 : ℕ) : ℚ) = 128 := by
        field_simp at hcontra
        linarith
      exact_mod_cast h128
    rw [roundPy2, specHalfUp2, rndHalfEven_of_ne_half _ hfr_ne]
  · norm_num [roundPy2, rndHalfEven, Int.fract]

theorem C6_amended_banker_rounding_witness :
    roundPy2 ((256 : ℚ) / 1024) = specHalfUp2 ((256 : ℚ) / 1024) :=
  (C6_amended_banker_rounding 256).1 (by decide)

unseal List.mergeSort List.merge in
/-- Claim C8 (counterexample): two records of equal size are *not*
tie-broken by path: `sorted(files, key=lambda x: -x[1])` is stable, so
`b.txt` stays before `a.txt` — the path-ordered output the claim
demands would be the reverse. -/
theorem C8_counterexample :
    save_results_order [("b.txt", 5), ("a.txt", 5)] = [("b.txt", 5), ("a.txt", 5)]
  ∧ ([("b.txt", (5 : ℚ)), ("a.txt", 5)] : List (String × ℚ))
      ≠ [("a.txt", (5 : ℚ)), ("b.txt", 5)] := by
  constructor
  · rfl
  · simp

/-- Claim C8 (amended): the output ordering is descending by size only —
the result is a permutation of the input sorted so that each record's
size is at least the next one's; no path tie-break is applied (equal
sizes keep their traversal order, see the counterexample).  The same
holds for the scanner's sort-then-truncate. -/
theorem C8_amended_sort_desc (files : List (String × ℚ)) (owner repoName : String)
    (resp : FlatResp) (tk : ℤ) (m : Nat) :
    (save_results_order files).Sorted (fun a b : String × ℚ => b.2 ≤ a.2)
  ∧ (save_results_order files).Perm files
  ∧ (scan_repository_for_large_files owner repoName resp tk m).Sorted
      (fun a b : ScanRec => b.size_bytes.getD 0 ≤ a.size_bytes.getD 0) := by
  have htrans : ∀ a b c : String × ℚ, decide (b.2 ≤ a.2) = true →
      decide (c.2 ≤ b.2) = true → decide (c.2 ≤ a.2) = true := by
    intro a b c h1 h2
    simp only [decide_eq_true_eq] at *
    linarith
  have htotal : ∀ a b : String × ℚ,
      (decide (b.2 ≤ a.2) || decide (a.2 ≤ b.2)) = true := by
    intro a b
    simp only [Bool.or_eq_true, decide_eq_true_eq]
    exact le_total _ _
  have htransS : ∀ a b c : ScanRec, decide (b.size_bytes.getD 0 ≤ a.size_bytes.getD 0) = true →
      decide (c.size_bytes.getD 0 ≤ b.size_bytes.getD 0) = true →
      decide (c.size_bytes.getD 0 ≤ a.size_bytes.getD 0) = true := by
    intro a b c h1 h2
    simp only [decide_eq_true_eq] at *
    omega
  have htotalS : ∀ a b : ScanRec,
      (decide (b.size_bytes.getD 0 ≤ a.size_bytes.getD 0)
        || decide (a.size_bytes.getD 0 ≤ b.size_bytes.getD 0)) = true := by
    intro a b
    simp only [Bool.or_eq_true, decide_eq_true_eq]
    exact le_total _ _
  refine ⟨?_, List.mergeSort_perm files _, ?_⟩
  · exact List.Pairwise.imp (fun h => by simpa using h)
      (List.sorted_mergeSort htrans htotal files)
  · simp only [scan_repository_for_large_files]
    exact List.Pairwise.imp (fun h => by simpa using h)
      ((List.sorted_mergeSort htransS htotalS _).sublist (List.take_sublist _ _))

/-- Claim C9 (counterexample): after a response reporting `remaining = 0`
with reset time 100, the next call is issued at time 2 (the fixed
2-second default pause), well before the reset time — the client does
not wait for `resetAt`. -/
theorem C9_counterexample :
    nextCallTime 0 2 ⟨0, 100⟩ = 2 ∧ (2 : ℕ) < 100 :=
  ⟨rfl, by decide⟩

/-- Claim C9 (amended): the scanner merely logs `remaining`/`resetAt` and
sleeps a fixed configured pause after each repository: the next call
time is `now + pause` whatever the reported rate limit, and over a whole
batch the call times are the fixed arithmetic progression
`start, start + pause, start + 2·pause, …`, independent of every
reported quota — no proactive wait until the reset time exists. -/
theorem C9_amended_fixed_pause (pause start now : Nat) (rl : RateLimitInfo)
    (rls : List RateLimitInfo) :
    nextCallTime now pause rl = now + pause
  ∧ batchCallTimes pause start rls
      = (List.range rls.length).map (fun i => start + pause * i) := by
  refine ⟨rfl, ?_⟩
  induction rls generalizing start with
  | nil => simp [batchCallTimes]
  | cons rl0 rest ih =>
    rw [batchCallTimes, show nextCallTime start pause rl0 = start + pause from rfl,
      ih (start + pause), List.length_cons, List.range_succ_eq_map, List.map_cons,
      List.map_map]
    have hfun : ((fun i => start + pause * i) ∘ (· + 1)) = fun i => start + pause + pause * i := by
      funext i
      simp only [Function.comp]
      ring
    rw [hfun]
    simp

/-- `walkTreeProcess` distributes over list append, componentwise. -/
theorem walkTreeProcess_append (t : ℚ) : ∀ (l1 l2 : List TreeEntry),
    walkTreeProcess t (l1 ++ l2)
      = ((walkTreeProcess t l1).1 ++ (walkTreeProcess t l2).1,
         (walkTreeProcess t l1).2 ++ (walkTreeProcess t l2).2)
  | [], l2 => by simp [walkTreeProcess]
  | e :: es, l2 => by
    have ih := walkTreeProcess_append t es l2
    by_cases hb : e.type = "blob"
    · cases ho : e.object with
      | none => simp [walkTreeProcess, hb, ho, ih]
      | some b =>
        by_cases hc : (b : ℚ) / 1024 ≥ t <;> simp [walkTreeProcess, hb, ho, hc, ih]
    · by_cases htr : e.type = "tree" <;> simp [walkTreeProcess, hb, htr, ih]

/-- Claim C10: a blob entry whose size object is absent produces no
record and leaves the rest of the traversal untouched: the GraphQuery
walker of `find-large-files-graphql.py` skips it outright (first
conjunct, for an entry anywhere in a directory listing), and csv6's
walker either skips an absent `object` (second conjunct) or defaults a
missing `byteSize` to 0 bytes, which never qualifies for a non-negative
threshold (third conjunct). -/
theorem C10_missing_size_skipped (es1 es2 : List TreeEntry) (p repoName : String) (t : ℚ)
    (g : String → Except String (List Csv6Entry)) (fuel : Nat) (ces : List Csv6Entry)
    (ht : 0 ≤ t) :
    walkTreeProcess t (es1 ++ ⟨"blob", p, none⟩ :: es2) = walkTreeProcess t (es1 ++ es2)
  ∧ csv6Entries repoName g t fuel (⟨"blob", p, none⟩ :: ces)
      = csv6Entries repoName g t fuel ces
  ∧ csv6Entries repoName g t fuel (⟨"blob", p, some ⟨none⟩⟩ :: ces)
      = csv6Entries repoName g t fuel ces := by
  refine ⟨?_, ?_, ?_⟩
  · rw [walkTreeProcess_append, walkTreeProcess_append]
    have hskip : walkTreeProcess t (⟨"blob", p, none⟩ :: es2) = walkTreeProcess t es2 := by
      simp [walkTreeProcess]
    rw [hskip]
  · simp [csv6Entries]
  · have hc : ¬(((Option.getD (none : Option ℕ) 0 : ℕ) : ℚ) / 1024 > t) := by
      simp
      linarith
    rcases hres : csv6Entries repoName g t fuel ces with _ | res
    · simp [csv6Entries, hres, hc]
    · cases res with
      | error e => simp [csv6Entries, hres, hc]
      | ok recs =>
        simp [csv6Entries, hres, hc]
        linarith

theorem C10_missing_size_skipped_witness :
    walkTreeProcess 0 ([] ++ ⟨"blob", "x", none⟩ :: [⟨"blob", "y", some 1024⟩])
      = walkTreeProcess 0 ([] ++ [⟨"blob", "y", some 1024⟩])
  ∧ csv6Entries "o/r" (fun _ => .ok []) 0 1 (⟨"blob", "x", none⟩ :: [])
      = csv6Entries "o/r" (fun _ => .ok []) 0 1 []
  ∧ csv6Entries "o/r" (fun _ => .ok []) 0 1 (⟨"blob", "x", some ⟨none⟩⟩ :: [])
      = csv6Entries "o/r" (fun _ => .ok []) 0 1 [] :=
  C10_missing_size_skipped [] [⟨"blob", "y", some 1024⟩] "x" "o/r" 0
    (fun _ => .ok []) 1 [] (le_refl 0)
